import Mathlib

/-!
Verification of the Patternsy pattern generator (patternsy.py).

The Python source is shallowly embedded below.  Conventions:

* Python `int` is modelled as `Int`; Python `//` and `%` on non-negative
  steps coincide with Lean's `Int./` (ediv) and `Int.%` (emod), which floor
  like Python does.
* Python `float` values are modelled as `ℚ`; the library functions
  `math.cos`, `math.sin` and the constant `math.pi` are opaque to the
  repository, so they are passed in as explicit parameters (any rational
  stand-in is accepted by the theorems unless stated otherwise).
* PIL images are modelled as `Img`: a width, a height and a total pixel
  function.  PIL's deterministic raster primitives (`draw.ellipse`,
  `Image.resize`, `Image.rotate`, `paste`, ...) are bundled in a
  `Primitives` record and passed to the embedded functions; the theorems
  quantify over them.
* Python's `random` module (Mersenne Twister) is modelled by an explicit
  stream-based generator `PRNG` with concrete stand-in functions; the seed
  flow mirrors the source exactly.
-/

/-- An RGBA pixel (channel values as in PIL, 0..255; the model does not
depend on the range). -/
structure Pixel where
  r : Nat
  g : Nat
  b : Nat
  a : Nat
deriving DecidableEq, Repr

/-- A raster image: width, height and a total pixel function (pixels
outside `[0,w) × [0,h)` are phantom values never consulted by the code). -/
structure Img where
  w : Int
  h : Int
  pix : Int → Int → Pixel

/-- `Image.new("RGBA", (w, h), color)`: a `w × h` image filled with a
constant color. -/
def newImage (w h : Int) (color : Pixel) : Img :=
  ⟨w, h, fun _ _ => color⟩

/-- Python `int()` applied to a rational: truncation toward zero
(T-division of the reduced numerator by the denominator). -/
def truncRat (q : ℚ) : Int :=
  q.num.tdiv (q.den : Int)

theorem truncRat_eq_floor {q : ℚ} (h : 0 ≤ q) : truncRat q = ⌊q⌋ := by
  rw [Rat.floor_def, truncRat, Int.tdiv_eq_ediv (Rat.num_nonneg.mpr h) (by positivity)]

theorem truncRat_fifty : truncRat 50 = 50 := by
  rw [truncRat_eq_floor (by norm_num)]
  simp

/-- Python `range(start, stop, step)` for a positive step, as a list:
`start, start+step, ...` while below `stop`. -/
def pyRange (start stop step : Int) : List Int :=
  (List.range ((stop - start + step - 1) / step).toNat).map
    (fun (i : Nat) => start + (i : Int) * step)

theorem mem_pyRange {start stop step a : Int} (hstep : 0 < step) :
    a ∈ pyRange start stop step ↔
      ∃ k : Nat, a = start + (k : Int) * step ∧ start + (k : Int) * step < stop := by
  unfold pyRange
  constructor
  · intro hmem
    obtain ⟨i, hi, hval⟩ := List.mem_map.mp hmem
    have hilt : i < ((stop - start + step - 1) / step).toNat := List.mem_range.mp hi
    refine ⟨i, hval.symm, ?_⟩
    have hi' : (i : Int) < (stop - start + step - 1) / step := Int.lt_toNat.mp hilt
    have h1 : (i : Int) + 1 ≤ (stop - start + step - 1) / step := hi'
    have h2 : ((i : Int) + 1) * step ≤ stop - start + step - 1 :=
      (Int.le_ediv_iff_mul_le hstep).mp h1
    nlinarith
  · rintro ⟨k, rfl, hk⟩
    refine List.mem_map.mpr ⟨k, List.mem_range.mpr (Int.lt_toNat.mpr ?_), rfl⟩
    have h2 : ((k : Int) + 1) * step ≤ stop - start + step - 1 := by nlinarith
    have h3 := (Int.le_ediv_iff_mul_le hstep).mpr h2
    omega

/-- `grid` branch of `generate_pattern_coordinates` (patternsy.py:154-158):
a lattice starting at half-spacing, row by row. -/
def gridCoords (width height spacing_x spacing_y : Int) : List (Int × Int) :=
  (pyRange (spacing_y / 2) height spacing_y).flatMap fun y =>
    (pyRange (spacing_x / 2) width spacing_x).map fun x => (x, y)

/-- Even ("regular") row x-coordinates of the offset grid
(patternsy.py:170): `range(spacing_x // 2, width, spacing_x)`. -/
def gridRowXs (width spacing_x : Int) : List Int :=
  pyRange (spacing_x / 2) width spacing_x

/-- Odd ("offset") row x-coordinates of the offset grid (patternsy.py:165-166):
`row_offset = spacing_x // 2` and then
`range(spacing_x // 2 + row_offset, width + spacing_x, spacing_x)`. -/
def offsetRowXs (width spacing_x : Int) : List Int :=
  pyRange (spacing_x / 2 + spacing_x / 2) (width + spacing_x) spacing_x

/-- `offset_grid` branch of `generate_pattern_coordinates`
(patternsy.py:160-171). -/
def offsetGridCoords (width height spacing_x spacing_y : Int) : List (Int × Int) :=
  ((pyRange (spacing_y / 2) height spacing_y).enum).flatMap fun ry =>
    if ry.1 % 2 = 1 then (offsetRowXs width spacing_x).map fun x => (x, ry.2)
    else (gridRowXs width spacing_x).map fun x => (x, ry.2)

/-- C2 helper: the claimed 16-point grid for 512×512 with spacing 128. -/
def gridExpected512 : List (Int × Int) :=
  [(64, 64), (192, 64), (320, 64), (448, 64),
   (64, 192), (192, 192), (320, 192), (448, 192),
   (64, 320), (192, 320), (320, 320), (448, 320),
   (64, 448), (192, 448), (320, 448), (448, 448)]

/-- Stream-based pseudo-random generator state: a stand-in for Python's
`random` module (a library, external to the repository).  `stream` is the
value sequence, `idx` the read position. -/
structure PRNG where
  stream : Nat → Nat
  idx : Nat

/-- Draw the next raw value from the generator. -/
def prngNext (g : PRNG) : Nat × PRNG :=
  (g.stream g.idx, ⟨g.stream, g.idx + 1⟩)

/-- Concrete stand-in value stream for a seeded Mersenne Twister: a
deterministic function of the seed and the position. -/
def lcgStream (seed : Nat) : Nat → Nat :=
  fun n => (1103515245 * (seed + 2654435761 * (n + 1)) + 12345) % 2147483648

/-- `random.seed(x)`: the generator becomes a deterministic function of the
seed alone. -/
def pySeed (x : Int) : PRNG :=
  ⟨lcgStream x.natAbs, 0⟩

/-- `random.seed()` (no argument): reseeds from OS entropy, modelled by an
explicit entropy parameter threaded through the embedding. -/
def pySeedEntropy (entropy : Nat) : PRNG :=
  ⟨lcgStream entropy, 0⟩

/-- Stand-in for CPython's `hash` of a 4-tuple of ints: an arbitrary but
fixed deterministic function of the four components (which is the only
property of `hash` the source relies on). -/
def pyHash (w h sx sy : Int) : Int :=
  ((w * 1000003 + h) * 1000003 + sx) * 1000003 + sy

/-- `random.randint(lo, hi)` (inclusive bounds): stand-in drawing one raw
stream value and folding it into the range. -/
def randint (lo hi : Int) (g : PRNG) : Int × PRNG :=
  let (v, g1) := prngNext g
  (lo + (v : Int) % (hi - lo + 1), g1)

/-- `random.uniform(a, b)`: stand-in drawing one raw stream value. -/
def pyUniform (a b : ℚ) (g : PRNG) : ℚ × PRNG :=
  let (v, g1) := prngNext g
  (a + (b - a) * ((v % 1024 : Nat) : ℚ) / 1024, g1)

/-- The rejection test of the `random` layout (patternsy.py:189-196): the
candidate is too close when BOTH axis distances (plain absolute
differences) are under the thresholds for some existing point. -/
def tooClose (coords : List (Int × Int)) (x y min_spacing_x min_spacing_y : Int) : Bool :=
  coords.any fun p => decide (|p.1 - x| < min_spacing_x ∧ |p.2 - y| < min_spacing_y)

/-- The inner `for attempt in range(20)` loop of the `random` layout
(patternsy.py:184-200): keeps drawing candidates until one is accepted or
the attempt budget runs out (in which case the candidate is skipped). -/
def attemptLoop (min_spacing_x min_spacing_y width height : Int)
    (coords : List (Int × Int)) (g : PRNG) : Nat → List (Int × Int) × PRNG
  | 0 => (coords, g)
  | n + 1 =>
    let (x, g1) := randint 0 (width - 1) g
    let (y, g2) := randint 0 (height - 1) g1
    if tooClose coords x y min_spacing_x min_spacing_y then
      attemptLoop min_spacing_x min_spacing_y width height coords g2 n
    else (coords ++ [(x, y)], g2)

/-- The outer `for _ in range(num_shapes)` loop of the `random` layout
(patternsy.py:183-200). -/
def shapesLoop (min_spacing_x min_spacing_y width height : Int) :
    Nat → List (Int × Int) × PRNG → List (Int × Int) × PRNG
  | 0, st => st
  | n + 1, (coords, g) =>
    shapesLoop min_spacing_x min_spacing_y width height n
      (attemptLoop min_spacing_x min_spacing_y width height coords g 20)

/-- `random` branch of `generate_pattern_coordinates` (patternsy.py:173-202):
seeds from `hash((width, height, spacing_x, spacing_y))`, places
`int((width // spacing_x) * (height // spacing_y) * 1.2)` candidates
(exact arithmetic: `* 6 / 5`), then reseeds from OS entropy. -/
def randomCoords (width height spacing_x spacing_y : Int) (entropy : Nat) :
    List (Int × Int) × PRNG :=
  let g0 := pySeed (pyHash width height spacing_x spacing_y)
  let num_shapes := (width / spacing_x) * (height / spacing_y) * 6 / 5
  ((shapesLoop (spacing_x / 3) (spacing_y / 3) width height num_shapes.toNat ([], g0)).1,
    pySeedEntropy entropy)

/-- From the spec's words (the claims' vocabulary, not in the source): the
per-axis toroidal distance `min(|Δ|, dimension − |Δ|)`. -/
def toroidalDist (delta dimension : Int) : Int :=
  min |delta| (dimension - |delta|)

/-- The `while True` spiral loop of `generate_pattern_coordinates`
(patternsy.py:212-224), with explicit fuel (`none` = fuel exhausted before
the `break`).  `a`, `b`, `maxR`, `cx`, `cy` are precomputed by
`spiralCoords`; `cosF`/`sinF` stand for `math.cos`/`math.sin`. -/
def spiralLoop (cosF sinF : ℚ → ℚ) (a b maxR cx cy wq hq : ℚ) :
    Nat → ℚ → List (Int × Int) → Option (List (Int × Int))
  | 0, _, _ => none
  | fuel + 1, t, acc =>
    let r := a * t
    if maxR < r then some acc
    else
      let x := cx + r * cosF t
      let y := cy + r * sinF t
      let acc1 := if 0 ≤ x ∧ x < wq ∧ 0 ≤ y ∧ y < hq then
          acc ++ [(truncRat x, truncRat y)]
        else acc
      spiralLoop cosF sinF a b maxR cx cy wq hq fuel
        (t + (if 0 < r then b / r else b)) acc1

/-- Instrumented copy of `spiralLoop`: additionally records, per emitted
point, the radius at emission; the full pre-filter sample list
`(r, x, y)`; and the radius at which the loop broke. -/
def spiralLoopR (cosF sinF : ℚ → ℚ) (a b maxR cx cy wq hq : ℚ) :
    Nat → ℚ → List (ℚ × Int × Int) → List (ℚ × ℚ × ℚ) →
    Option (List (ℚ × Int × Int) × List (ℚ × ℚ × ℚ) × ℚ)
  | 0, _, _, _ => none
  | fuel + 1, t, acc, samples =>
    let r := a * t
    if maxR < r then some (acc, samples, r)
    else
      let x := cx + r * cosF t
      let y := cy + r * sinF t
      let acc1 := if 0 ≤ x ∧ x < wq ∧ 0 ≤ y ∧ y < hq then
          acc ++ [(r, truncRat x, truncRat y)]
        else acc
      spiralLoopR cosF sinF a b maxR cx cy wq hq fuel
        (t + (if 0 < r then b / r else b)) acc1 (samples ++ [(r, x, y)])

/-- `spiral` branch of `generate_pattern_coordinates` (patternsy.py:204-224):
center `(width // 2, height // 2)`, `max_radius = min(width, height) // 2`,
`a = spacing_x / (2 * pi)`, `b = spacing_y / 20`, starting at `t = 0`. -/
def spiralCoords (piV : ℚ) (cosF sinF : ℚ → ℚ) (width height spacing_x spacing_y : Int)
    (fuel : Nat) : Option (List (Int × Int)) :=
  spiralLoop cosF sinF ((spacing_x : ℚ) / (2 * piV)) ((spacing_y : ℚ) / 20)
    ((min width height / 2 : Int) : ℚ) ((width / 2 : Int) : ℚ) ((height / 2 : Int) : ℚ)
    (width : ℚ) (height : ℚ) fuel 0 []

/-- The key of the custom-image cache: `(path, shape_width, shape_height)`
(patternsy.py:17). -/
def CacheKey := String × Int × Int

instance : DecidableEq CacheKey := by
  unfold CacheKey
  infer_instance

/-- The process-wide `_custom_image_cache` dictionary (patternsy.py:9). -/
def Cache := CacheKey → Option Img

/-- The deterministic raster/file primitives of the PIL and math libraries,
opaque to this repository and therefore passed in explicitly.  Each field
documents the library call it stands for. -/
structure Primitives where
  /-- `math.pi`. -/
  piV : ℚ
  /-- `math.cos`. -/
  cosF : ℚ → ℚ
  /-- `math.sin`. -/
  sinF : ℚ → ℚ
  /-- `draw.ellipse([0, 0, w-1, h-1], fill=color)` on a fresh transparent
  `w × h` buffer. -/
  ellipse : Int → Int → Pixel → Img
  /-- `draw.rectangle([0, 0, w-1, h-1], fill=color)` on a fresh transparent
  `w × h` buffer. -/
  rectangle : Int → Int → Pixel → Img
  /-- `draw.polygon(points, fill=color)` on a fresh transparent `w × h`
  buffer. -/
  polygon : List (ℚ × ℚ) → Int → Int → Pixel → Img
  /-- `img.rotate(deg, resample=Image.NEAREST, expand=False)`. -/
  rotate : ℚ → Img → Img
  /-- `img.resize((w, h), Image.LANCZOS)` / `Image.Resampling.LANCZOS`. -/
  resize : Int → Int → Img → Img
  /-- `img.filter(ImageFilter.GaussianBlur(radius))`. -/
  blur : ℚ → Img → Img
  /-- `Image.open(path).convert("RGBA")`; `none` models a raised
  exception (missing/corrupt file). -/
  loadImage : String → Option Img
  /-- `os.path.exists(path)`. -/
  fsExists : String → Bool
  /-- The per-pixel combine of `img.paste(src, box, src)` (alpha-masked
  paste): arguments are the source pixel and the destination pixel. -/
  paste : Pixel → Pixel → Pixel

/-- `get_cached_custom_image(custom_image_path, shape_width, shape_height)`
(patternsy.py:11-34).  Returns the (copy of the) image and the updated
cache; `.copy()` is the identity under the value semantics of `Img`. -/
def get_cached_custom_image (P : Primitives) (cache : Cache)
    (custom_image_path : String) (shape_width shape_height : Int) :
    Option Img × Cache :=
  if custom_image_path = "" ∨ P.fsExists custom_image_path = false then
    (none, cache)
  else
    match cache (custom_image_path, shape_width, shape_height) with
    | some img => (some img, cache)
    | none =>
      match P.loadImage custom_image_path with
      | none => (none, cache)
      | some raw =>
        let resized := P.resize shape_width shape_height raw
        (some resized,
          fun k => if k = (custom_image_path, shape_width, shape_height) then
              some resized
            else cache k)

/-- The ten star vertices (patternsy.py:248-259), alternating outer radius
`min(w, h) // 2` and inner radius `outer // 2`, angles `pi/5*i - pi/2`. -/
def starPoints (P : Primitives) (shape_width shape_height : Int) : List (ℚ × ℚ) :=
  (List.range 10).map fun i =>
    let radius : Int := if i % 2 = 0 then min shape_width shape_height / 2
      else min shape_width shape_height / 2 / 2
    let angle : ℚ := P.piV / 5 * (i : ℚ) - P.piV / 2
    (((shape_width / 2 : Int) : ℚ) + (radius : ℚ) * P.cosF angle,
      ((shape_height / 2 : Int) : ℚ) + (radius : ℚ) * P.sinF angle)

/-- Truthiness-and-existence test of `custom_image_path` in the condition at
patternsy.py:263. -/
def pathOk (P : Primitives) : Option String → Prop
  | some p => p ≠ "" ∧ P.fsExists p = true
  | none => False

instance (P : Primitives) (op : Option String) : Decidable (pathOk P op) := by
  cases op <;> simp [pathOk] <;> infer_instance

/-- `create_shape(shape_type, shape_width, shape_height, color, rotation,
custom_image_path)` (patternsy.py:228-275).  Returns the shape image and
the (possibly grown) custom-image cache. -/
def create_shape (P : Primitives) (cache : Cache) (shape_type : String)
    (shape_width shape_height : Int) (color : Pixel) (rotation : ℚ)
    (custom_image_path : Option String) : Img × Cache :=
  let base :=
    if shape_type = "circle" then
      (P.ellipse shape_width shape_height color, cache)
    else if shape_type = "square" then
      (P.rectangle shape_width shape_height color, cache)
    else if shape_type = "triangle" then
      (P.polygon [(((shape_width / 2 : Int) : ℚ), 0),
          (0, ((shape_height - 1 : Int) : ℚ)),
          (((shape_width - 1 : Int) : ℚ), ((shape_height - 1 : Int) : ℚ))]
        shape_width shape_height color, cache)
    else if shape_type = "star" then
      (P.polygon (starPoints P shape_width shape_height)
        shape_width shape_height color, cache)
    else if shape_type = "custom" ∧ pathOk P custom_image_path then
      match custom_image_path with
      | some p =>
        let (ci, cache1) := get_cached_custom_image P cache p shape_width shape_height
        match ci with
        | some img => (img, cache1)
        | none => (P.ellipse shape_width shape_height color, cache1)
      | none => (P.ellipse shape_width shape_height color, cache)
    else (P.ellipse shape_width shape_height color, cache)
  (if rotation ≠ 0 then P.rotate rotation base.1 else base.1, base.2)

/-- `draw_cropped_shape(img, shape_img, paste_x, paste_y, width, height)`
(patternsy.py:314-337).  `blend` is the per-pixel combine of the masked
`paste` (P.paste in the pipeline). -/
def draw_cropped_shape (blend : Pixel → Pixel → Pixel) (img shape_img : Img)
    (paste_x paste_y width height : Int) : Img :=
  let shape_width := shape_img.w
  let shape_height := shape_img.h
  let left := max 0 paste_x
  let top := max 0 paste_y
  let right := min width (paste_x + shape_width)
  let bottom := min height (paste_y + shape_height)
  if left < right ∧ top < bottom then
    ⟨img.w, img.h, fun x y =>
      if left ≤ x ∧ x < right ∧ top ≤ y ∧ y < bottom then
        blend (shape_img.pix (x - paste_x) (y - paste_y)) (img.pix x y)
      else img.pix x y⟩
  else img

/-- `draw_shape_with_tiling(img, shape_img, paste_x, paste_y, width, height)`
(patternsy.py:277-312): the main draw plus the horizontal, vertical and
corner wrapped copies. -/
def draw_shape_with_tiling (blend : Pixel → Pixel → Pixel) (img shape_img : Img)
    (paste_x paste_y width height : Int) : Img :=
  let shape_width := shape_img.w
  let shape_height := shape_img.h
  let i1 := draw_cropped_shape blend img shape_img paste_x paste_y width height
  let i2 :=
    if paste_x < 0 then
      draw_cropped_shape blend i1 shape_img (paste_x + width) paste_y width height
    else if width < paste_x + shape_width then
      draw_cropped_shape blend i1 shape_img (paste_x - width) paste_y width height
    else i1
  let i3 :=
    if paste_y < 0 then
      draw_cropped_shape blend i2 shape_img paste_x (paste_y + height) width height
    else if height < paste_y + shape_height then
      draw_cropped_shape blend i2 shape_img paste_x (paste_y - height) width height
    else i2
  if paste_x < 0 ∧ paste_y < 0 then
    draw_cropped_shape blend i3 shape_img (paste_x + width) (paste_y + height) width height
  else if paste_x < 0 ∧ height < paste_y + shape_height then
    draw_cropped_shape blend i3 shape_img (paste_x + width) (paste_y - height) width height
  else if width < paste_x + shape_width ∧ paste_y < 0 then
    draw_cropped_shape blend i3 shape_img (paste_x - width) (paste_y + height) width height
  else if width < paste_x + shape_width ∧ height < paste_y + shape_height then
    draw_cropped_shape blend i3 shape_img (paste_x - width) (paste_y - height) width height
  else i3

/-- `generate_pattern_coordinates(width, height, spacing_x, spacing_y,
pattern_type)` (patternsy.py:150-226).  `fuel` bounds the spiral's
`while True` loop (`none` = not yet terminated within `fuel`); `entropy`
models the OS entropy used by the trailing `random.seed()` of the `random`
branch.  Returns the coordinate list and the generator state left behind
in the global `random` module. -/
def generate_pattern_coordinates (P : Primitives) (fuel : Nat)
    (width height spacing_x spacing_y : Int) (pattern_type : String)
    (g : PRNG) (entropy : Nat) : Option (List (Int × Int)) × PRNG :=
  if pattern_type = "grid" then
    (some (gridCoords width height spacing_x spacing_y), g)
  else if pattern_type = "offset_grid" then
    (some (offsetGridCoords width height spacing_x spacing_y), g)
  else if pattern_type = "random" then
    let res := randomCoords width height spacing_x spacing_y entropy
    (some res.1, res.2)
  else if pattern_type = "spiral" then
    (spiralCoords P.piV P.cosF P.sinF width height spacing_x spacing_y fuel, g)
  else (some [], g)

/-- `img.convert("RGB")` (patternsy.py:145): the alpha channel is dropped
(forced opaque). -/
def convertRGB (img : Img) : Img :=
  ⟨img.w, img.h, fun x y =>
    let p := img.pix x y
    ⟨p.r, p.g, p.b, 255⟩⟩

/-- The keyword parameters of `create_pattern` (patternsy.py:36-56), with
the source's `None` defaults as `Option`. -/
structure Config where
  width : Int := 1200
  height : Int := 1200
  base_scale : Int := 32
  shape_width : Option Int := none
  shape_height : Option Int := none
  spacing : Int := 128
  spacing_x : Option Int := none
  spacing_y : Option Int := none
  pattern_type : String := "offset_grid"
  shape_type : String := "circle"
  custom_image_path : Option String := none
  bg_color : Pixel := ⟨0, 0, 0, 255⟩
  fg_color : Pixel := ⟨255, 0, 0, 255⟩
  scale_randomization : ℚ := 0
  base_rotation : ℚ := 0
  rotation_randomization : ℚ := 0
  antialiasing : Bool := true
  aa_scale : Int := 4

/-- The `for x, y in coordinates` body of `create_pattern`
(patternsy.py:113-138): per-placement scale/rotation randomization, shape
creation, and tiling composite.  State: canvas, custom-image cache,
generator. -/
def placeShapes (P : Primitives) (shape_type : String)
    (custom_image_path : Option String) (fg_color : Pixel)
    (scale_randomization rotation_randomization base_rotation : ℚ)
    (aa_shape_width aa_shape_height aa_width aa_height : Int) :
    List (Int × Int) → Img × Cache × PRNG → Img × Cache × PRNG
  | [], st => st
  | (x, y) :: rest, (img, cache, g) =>
    let swg :=
      if 0 < scale_randomization then
        let (u, g1) := pyUniform (-1) 1 g
        let scale_factor := 1 - scale_randomization * u
        (max (truncRat ((aa_shape_width : ℚ) * scale_factor)) 1,
          max (truncRat ((aa_shape_height : ℚ) * scale_factor)) 1, g1)
      else (aa_shape_width, aa_shape_height, g)
    let current_shape_width := swg.1
    let current_shape_height := swg.2.1
    let rotg :=
      if 0 < rotation_randomization then
        let rotation_range := 360 * rotation_randomization
        let (u, g1) := pyUniform (-(rotation_range / 2)) (rotation_range / 2) swg.2.2
        (base_rotation + u, g1)
      else (base_rotation, swg.2.2)
    let sc := create_shape P cache shape_type current_shape_width
      current_shape_height fg_color rotg.1 custom_image_path
    let paste_x := truncRat ((x : ℚ) - (sc.1.w : ℚ) / 2)
    let paste_y := truncRat ((y : ℚ) - (sc.1.h : ℚ) / 2)
    let img1 := draw_shape_with_tiling P.paste img sc.1 paste_x paste_y aa_width aa_height
    placeShapes P shape_type custom_image_path fg_color scale_randomization
      rotation_randomization base_rotation aa_shape_width aa_shape_height
      aa_width aa_height rest (img1, sc.2, rotg.2)

/-- `create_pattern(...)` (patternsy.py:36-148), without the file save.
Returns the finished image (`none` when the spiral fuel ran out), the
custom-image cache and the generator state after the call. -/
def create_pattern (P : Primitives) (cfg : Config) (fuel : Nat) (cache : Cache)
    (g : PRNG) (entropy : Nat) : Option Img × Cache × PRNG :=
  let shape_width := cfg.shape_width.getD cfg.base_scale
  let shape_height := cfg.shape_height.getD cfg.base_scale
  let spacing_x := cfg.spacing_x.getD cfg.spacing
  let spacing_y := cfg.spacing_y.getD cfg.spacing
  let aa_width := if cfg.antialiasing then cfg.width * cfg.aa_scale else cfg.width
  let aa_height := if cfg.antialiasing then cfg.height * cfg.aa_scale else cfg.height
  let aa_shape_width := if cfg.antialiasing then shape_width * cfg.aa_scale else shape_width
  let aa_shape_height := if cfg.antialiasing then shape_height * cfg.aa_scale else shape_height
  let aa_spacing_x := if cfg.antialiasing then spacing_x * cfg.aa_scale else spacing_x
  let aa_spacing_y := if cfg.antialiasing then spacing_y * cfg.aa_scale else spacing_y
  let img0 := newImage aa_width aa_height cfg.bg_color
  let gp := generate_pattern_coordinates P fuel aa_width aa_height aa_spacing_x
    aa_spacing_y cfg.pattern_type g entropy
  match gp.1 with
  | none => (none, cache, gp.2)
  | some coordinates =>
    let res := placeShapes P cfg.shape_type cfg.custom_image_path cfg.fg_color
      cfg.scale_randomization cfg.rotation_randomization cfg.base_rotation
      aa_shape_width aa_shape_height aa_width aa_height coordinates
      (img0, cache, gp.2)
    let img1 := if cfg.antialiasing then
        P.blur (3 / 10) (P.resize cfg.width cfg.height res.1)
      else res.1
    (some (convertRGB img1), res.2.1, res.2.2)

/-- C2: `generate_pattern_coordinates` with width=512, height=512,
spacing_x=128, spacing_y=128 and pattern_type "grid" returns exactly the 16
points (x, y) with x, y ∈ {64, 192, 320, 448}, enumerated row by row
starting at (64, 64). -/
theorem C2_grid_512_coordinates (P : Primitives) (fuel : Nat) (g : PRNG)
    (entropy : Nat) :
    (generate_pattern_coordinates P fuel 512 512 128 128 "grid" g entropy).1 =
      some gridExpected512 := by
  rfl

/-- C1: `draw_cropped_shape` modifies only canvas pixels inside the
intersection of `[paste_x, paste_x + shapeW) × [paste_y, paste_y + shapeH)`
with `[0, width) × [0, height)`; every pixel outside that intersection is
unchanged, and when the intersection is empty the canvas is returned
entirely unchanged. -/
theorem C1_draw_cropped_shape_frame (blend : Pixel → Pixel → Pixel)
    (img shape_img : Img) (paste_x paste_y width height : Int) :
    (∀ x y : Int,
        ¬(paste_x ≤ x ∧ x < paste_x + shape_img.w ∧
          paste_y ≤ y ∧ y < paste_y + shape_img.h ∧
          0 ≤ x ∧ x < width ∧ 0 ≤ y ∧ y < height) →
        (draw_cropped_shape blend img shape_img paste_x paste_y width height).pix x y =
          img.pix x y) ∧
    ((¬ ∃ x y : Int,
        paste_x ≤ x ∧ x < paste_x + shape_img.w ∧
        paste_y ≤ y ∧ y < paste_y + shape_img.h ∧
        0 ≤ x ∧ x < width ∧ 0 ≤ y ∧ y < height) →
      draw_cropped_shape blend img shape_img paste_x paste_y width height = img) := by
  constructor
  · intro x y hout
    unfold draw_cropped_shape
    dsimp only
    split_ifs with hg
    · show (if _ ∧ _ ∧ _ ∧ _ then _ else img.pix x y) = img.pix x y
      rw [if_neg]
      omega
    · rfl
  · intro hempty
    unfold draw_cropped_shape
    dsimp only
    rw [if_neg]
    intro hg
    exact hempty ⟨max 0 paste_x, max 0 paste_y, by omega⟩

/-- Shared concrete instances used by witnesses. -/
def blendEx : Pixel → Pixel → Pixel := fun s _ => s

def imgEx : Img := newImage 10 10 ⟨1, 2, 3, 255⟩

def shapeEx : Img := newImage 3 3 ⟨9, 9, 9, 255⟩

theorem C1_witness :
    (draw_cropped_shape blendEx imgEx shapeEx 20 20 10 10).pix 0 0 = imgEx.pix 0 0 :=
  (C1_draw_cropped_shape_frame blendEx imgEx shapeEx 20 20 10 10).1 0 0 (by decide)

/-- C9: `create_shape` with shape_type "custom" and a custom image path
that does not exist on disk returns the same buffer (and cache) as
`create_shape` with shape_type "circle" and the same width, height, color
and rotation; no exception is modelled (the embedding is total). -/
theorem C9_custom_missing_falls_back_to_circle (P : Primitives) (cache : Cache)
    (shape_width shape_height : Int) (color : Pixel) (rotation : ℚ) (path : String)
    (hmiss : P.fsExists path = false) :
    create_shape P cache "custom" shape_width shape_height color rotation (some path) =
      create_shape P cache "circle" shape_width shape_height color rotation (some path) := by
  simp [create_shape, pathOk, hmiss]

/-- Concrete primitives used by witnesses: every library stand-in is a
trivial total function. -/
def trivPrims : Primitives where
  piV := 157 / 50
  cosF := fun _ => 1
  sinF := fun _ => 0
  ellipse := fun w h c => newImage w h c
  rectangle := fun w h c => newImage w h c
  polygon := fun _ w h c => newImage w h c
  rotate := fun _ i => i
  resize := fun w h i => ⟨w, h, i.pix⟩
  blur := fun _ i => i
  loadImage := fun _ => none
  fsExists := fun _ => false
  paste := fun s _ => s

/-- The empty custom-image cache. -/
def emptyCache : Cache := fun _ => none

theorem C9_witness :
    create_shape trivPrims emptyCache "custom" 8 8 ⟨255, 0, 0, 255⟩ 0 (some "missing.png") =
      create_shape trivPrims emptyCache "circle" 8 8 ⟨255, 0, 0, 255⟩ 0 (some "missing.png") :=
  C9_custom_missing_falls_back_to_circle trivPrims emptyCache 8 8 ⟨255, 0, 0, 255⟩ 0
    "missing.png" rfl

/-- C10: a second `get_cached_custom_image` call with the same key, run on
the cache produced by the first call, returns an image equal to the first
call's result — the cache-hit path and the fresh-load path agree.  Under
the value semantics of `Img`, `.copy()` is the identity, so the stored
entry can never be disturbed by the caller and later calls are unaffected. -/
theorem C10_cache_second_call_agrees (P : Primitives) (cache : Cache)
    (path : String) (shape_width shape_height : Int) :
    (get_cached_custom_image P
        (get_cached_custom_image P cache path shape_width shape_height).2
        path shape_width shape_height).1 =
      (get_cached_custom_image P cache path shape_width shape_height).1 := by
  by_cases h0 : path = "" ∨ P.fsExists path = false
  · simp [get_cached_custom_image, h0]
  · rcases hc : cache (path, shape_width, shape_height) with _ | img
    · rcases hl : P.loadImage path with _ | raw
      · simp [get_cached_custom_image, h0, hc, hl]
      · simp [get_cached_custom_image, h0, hc, hl]
    · simp [get_cached_custom_image, h0, hc]

/-- C5: in the `offset_grid` layout, for every x in an even row's
x-coordinate list, every odd-indexed row (row `r`, row y-value `y`)
contains the point with x shifted right by exactly half the horizontal
spacing (`spacing_x // 2`). -/
theorem C5_offset_rows_are_even_rows_shifted (width height spacing_x spacing_y : Int)
    (r : Nat) (y x : Int) (hsx : 0 < spacing_x)
    (hrow : (r, y) ∈ (pyRange (spacing_y / 2) height spacing_y).enum)
    (hodd : r % 2 = 1) (hx : x ∈ gridRowXs width spacing_x) :
    (x + spacing_x / 2, y) ∈ offsetGridCoords width height spacing_x spacing_y := by
  unfold offsetGridCoords
  refine List.mem_flatMap.mpr ⟨(r, y), hrow, ?_⟩
  rw [if_pos (show (r, y).1 % 2 = 1 from hodd)]
  refine List.mem_map.mpr ⟨x + spacing_x / 2, ?_, rfl⟩
  obtain ⟨k, rfl, hklt⟩ := (mem_pyRange hsx).mp hx
  have hhalf : spacing_x / 2 ≤ spacing_x := by omega
  refine (mem_pyRange hsx).mpr ⟨k, by ring, by linarith⟩

theorem C5_witness : (128, 192) ∈ offsetGridCoords 512 512 128 128 :=
  C5_offset_rows_are_even_rows_shifted 512 512 128 128 1 192 64 (by decide)
    (by decide) (by decide) (by decide)

/-- C6 counterexample: for width=height=512, spacing=128, the first odd row
(row index 1, y = 192) of the offset grid contains neither a point one
spacing unit to the negative side of the even rows' first x
(64 - 128 = -64) nor a point one spacing unit beyond the even rows' last x
(448 + 128 = 576); the odd-row x-range is not extended as the claim
states. -/
theorem C6_counterexample :
    ((-64 : Int), (192 : Int)) ∉ offsetGridCoords 512 512 128 128 ∧
    ((576 : Int), (192 : Int)) ∉ offsetGridCoords 512 512 128 128 := by
  decide

/-- C6 (amended): each odd-indexed row's x-range is shifted right by half a
spacing and its stop bound is extended by one spacing unit beyond the even
rows' stop bound (`width + spacing_x` instead of `width`), at the far end
only: every odd-row x is non-negative, some odd-row x lies in
`[width, width + spacing_x)` (the wrap shape for the right seam), and every
even-row x lies in `[spacing_x / 2, width)`. -/
theorem C6_offset_row_far_end_extension (width spacing_x : Int)
    (hw : 0 < width) (hsx : 0 < spacing_x) :
    (∀ x ∈ offsetRowXs width spacing_x, 0 ≤ x) ∧
    (∃ x ∈ offsetRowXs width spacing_x, width ≤ x ∧ x < width + spacing_x) ∧
    (∀ x ∈ gridRowXs width spacing_x, spacing_x / 2 ≤ x ∧ x < width) := by
  refine ⟨?_, ?_, ?_⟩
  · intro x hx
    obtain ⟨k, rfl, _⟩ := (mem_pyRange hsx).mp hx
    have hk : (0 : Int) ≤ (k : Int) * spacing_x :=
      mul_nonneg (Int.natCast_nonneg k) (le_of_lt hsx)
    omega
  · set start := spacing_x / 2 + spacing_x / 2 with hstart
    by_cases hge : width ≤ start
    · refine ⟨start, (mem_pyRange hsx).mpr ⟨0, by ring, by push_cast; omega⟩, hge, by omega⟩
    · push_neg at hge
      set d := width - start with hd
      have hd1 : 1 ≤ d := by omega
      set k := (d + spacing_x - 1) / spacing_x with hk
      have hknn : 0 ≤ k := Int.ediv_nonneg (by omega) (le_of_lt hsx)
      have heq : spacing_x * k + (d + spacing_x - 1) % spacing_x = d + spacing_x - 1 :=
        Int.ediv_add_emod (d + spacing_x - 1) spacing_x
      have hr0 : 0 ≤ (d + spacing_x - 1) % spacing_x :=
        Int.emod_nonneg _ (by omega)
      have hrlt : (d + spacing_x - 1) % spacing_x < spacing_x :=
        Int.emod_lt_of_pos _ hsx
      refine ⟨start + k * spacing_x,
        (mem_pyRange hsx).mpr ⟨k.toNat, ?_, ?_⟩, by linarith, by linarith⟩
      · rw [Int.toNat_of_nonneg hknn]
      · rw [Int.toNat_of_nonneg hknn]
        linarith
  · intro x hx
    obtain ⟨k, rfl, hlt⟩ := (mem_pyRange hsx).mp hx
    have hk : (0 : Int) ≤ (k : Int) * spacing_x :=
      mul_nonneg (Int.natCast_nonneg k) (le_of_lt hsx)
    exact ⟨by omega, hlt⟩

theorem C6_witness :
    (∀ x ∈ offsetRowXs 512 128, 0 ≤ x) ∧
    (∃ x ∈ offsetRowXs 512 128, 512 ≤ x ∧ x < 512 + 128) ∧
    (∀ x ∈ gridRowXs 512 128, 128 / 2 ≤ x ∧ x < 512) :=
  C6_offset_row_far_end_extension 512 128 (by decide) (by decide)

/-- The repulsion predicate actually enforced by the `random` layout: the
plain (non-toroidal) per-axis absolute differences are not simultaneously
under the two thresholds. -/
def plainFar (min_spacing_x min_spacing_y : Int) (p q : Int × Int) : Prop :=
  ¬(|p.1 - q.1| < min_spacing_x ∧ |p.2 - q.2| < min_spacing_y)

theorem attemptLoop_pairwise (min_spacing_x min_spacing_y width height : Int) :
    ∀ (n : Nat) (coords : List (Int × Int)) (g : PRNG),
      coords.Pairwise (plainFar min_spacing_x min_spacing_y) →
      ((attemptLoop min_spacing_x min_spacing_y width height coords g n).1).Pairwise
        (plainFar min_spacing_x min_spacing_y) := by
  intro n
  induction n with
  | zero => intro coords g hp; exact hp
  | succ n ih =>
    intro coords g hp
    unfold attemptLoop
    dsimp only
    split_ifs with hclose
    · exact ih coords _ hp
    · dsimp only
      rw [List.pairwise_append]
      refine ⟨hp, List.pairwise_singleton _ _, ?_⟩
      simp only [tooClose] at hclose
      rw [Bool.not_eq_true, List.any_eq_false] at hclose
      rintro ⟨px, py⟩ hpmem b hbmem
      rw [List.mem_singleton] at hbmem
      subst hbmem
      have hone := hclose (px, py) hpmem
      unfold plainFar
      simpa using hone

theorem shapesLoop_pairwise (min_spacing_x min_spacing_y width height : Int) :
    ∀ (n : Nat) (st : List (Int × Int) × PRNG),
      st.1.Pairwise (plainFar min_spacing_x min_spacing_y) →
      ((shapesLoop min_spacing_x min_spacing_y width height n st).1).Pairwise
        (plainFar min_spacing_x min_spacing_y) := by
  intro n
  induction n with
  | zero => intro st hp; exact hp
  | succ n ih =>
    intro st hp
    obtain ⟨coords, g⟩ := st
    exact ih _ (attemptLoop_pairwise min_spacing_x min_spacing_y width height 20 coords g hp)

set_option maxRecDepth 100000 in
/-- C4 counterexample: for width=height=30, spacing_x=spacing_y=10, the
`random` layout accepts both (28, 7) and (0, 9), which are distinct points
whose per-axis toroidal distances (2 and 2) are both strictly below
spacing/3 = 3: the claimed toroidal pairwise-repulsion invariant is false
— the code measures plain absolute differences, with no wrap-around. -/
theorem C4_counterexample :
    ((28, 7) ∈ (randomCoords 30 30 10 10 0).1 ∧
     (0, 9) ∈ (randomCoords 30 30 10 10 0).1 ∧
     ((28, 7) : Int × Int) ≠ (0, 9)) ∧
    toroidalDist (28 - 0) 30 < 10 / 3 ∧ toroidalDist (7 - 9) 30 < 10 / 3 := by
  decide

/-- C4 (amended): for every canvas size, spacing and entropy, every pair of
points accepted by the `random` layout satisfies NOT
(|Δx| < spacing_x // 3 AND |Δy| < spacing_y // 3), where Δ is the plain
(non-toroidal) coordinate difference; the invariant is preserved as each
candidate is accepted (each candidate is tested against every previously
accepted point before being appended). -/
theorem C4_pairwise_plain_repulsion (width height spacing_x spacing_y : Int)
    (entropy : Nat) :
    ((randomCoords width height spacing_x spacing_y entropy).1).Pairwise
      (plainFar (spacing_x / 3) (spacing_y / 3)) := by
  have heq : randomCoords width height spacing_x spacing_y entropy =
      ((shapesLoop (spacing_x / 3) (spacing_y / 3) width height
          ((width / spacing_x * (height / spacing_y) * 6 / 5).toNat)
          ([], pySeed (pyHash width height spacing_x spacing_y))).1,
        pySeedEntropy entropy) := rfl
  rw [heq]
  show ((shapesLoop (spacing_x / 3) (spacing_y / 3) width height
      ((width / spacing_x * (height / spacing_y) * 6 / 5).toNat)
      ([], pySeed (pyHash width height spacing_x spacing_y))).1).Pairwise
    (plainFar (spacing_x / 3) (spacing_y / 3))
  exact shapesLoop_pairwise (spacing_x / 3) (spacing_y / 3) width height
    ((width / spacing_x * (height / spacing_y) * 6 / 5).toNat)
    ([], pySeed (pyHash width height spacing_x spacing_y)) List.Pairwise.nil

theorem spiralLoop_succ (cosF sinF : ℚ → ℚ) (a b maxR cx cy wq hq : ℚ)
    (fuel : Nat) (t : ℚ) (acc : List (Int × Int)) :
    spiralLoop cosF sinF a b maxR cx cy wq hq (fuel + 1) t acc =
      if maxR < a * t then some acc
      else spiralLoop cosF sinF a b maxR cx cy wq hq fuel
        (t + (if 0 < a * t then b / (a * t) else b))
        (if 0 ≤ cx + a * t * cosF t ∧ cx + a * t * cosF t < wq ∧
            0 ≤ cy + a * t * sinF t ∧ cy + a * t * sinF t < hq then
          acc ++ [(truncRat (cx + a * t * cosF t), truncRat (cy + a * t * sinF t))]
        else acc) :=
  rfl

theorem spiralLoopR_succ (cosF sinF : ℚ → ℚ) (a b maxR cx cy wq hq : ℚ)
    (fuel : Nat) (t : ℚ) (accR : List (ℚ × Int × Int)) (samples : List (ℚ × ℚ × ℚ)) :
    spiralLoopR cosF sinF a b maxR cx cy wq hq (fuel + 1) t accR samples =
      if maxR < a * t then some (accR, samples, a * t)
      else spiralLoopR cosF sinF a b maxR cx cy wq hq fuel
        (t + (if 0 < a * t then b / (a * t) else b))
        (if 0 ≤ cx + a * t * cosF t ∧ cx + a * t * cosF t < wq ∧
            0 ≤ cy + a * t * sinF t ∧ cy + a * t * sinF t < hq then
          accR ++ [(a * t, truncRat (cx + a * t * cosF t), truncRat (cy + a * t * sinF t))]
        else accR)
        (samples ++ [(a * t, cx + a * t * cosF t, cy + a * t * sinF t)]) :=
  rfl

/-- The plain spiral loop is the instrumented loop with the radii and the
sample list projected away. -/
theorem spiralLoop_eq_spiralLoopR (cosF sinF : ℚ → ℚ) (a b maxR cx cy wq hq : ℚ) :
    ∀ (fuel : Nat) (t : ℚ) (accR : List (ℚ × Int × Int)) (samples : List (ℚ × ℚ × ℚ)),
      spiralLoop cosF sinF a b maxR cx cy wq hq fuel t (accR.map Prod.snd) =
        (spiralLoopR cosF sinF a b maxR cx cy wq hq fuel t accR samples).map
          (fun o => o.1.map Prod.snd) := by
  intro fuel
  induction fuel with
  | zero => intro t accR samples; rfl
  | succ fuel ih =>
    intro t accR samples
    rw [spiralLoop_succ, spiralLoopR_succ]
    by_cases hbreak : maxR < a * t
    · rw [if_pos hbreak, if_pos hbreak]
      rfl
    · rw [if_neg hbreak, if_neg hbreak]
      by_cases hemit : 0 ≤ cx + a * t * cosF t ∧ cx + a * t * cosF t < wq ∧
          0 ≤ cy + a * t * sinF t ∧ cy + a * t * sinF t < hq
      · rw [if_pos hemit, if_pos hemit]
        have hmap : (accR ++ [(a * t, truncRat (cx + a * t * cosF t),
            truncRat (cy + a * t * sinF t))]).map Prod.snd =
            accR.map Prod.snd ++ [(truncRat (cx + a * t * cosF t),
              truncRat (cy + a * t * sinF t))] := by
          rw [List.map_append]
          rfl
        rw [← hmap]
        exact ih _ _ _
      · rw [if_neg hemit, if_neg hemit]
        exact ih _ _ _

/-- Fuel-indexed termination: once `t` is positive, fuel
`n + 1` suffices whenever `maxR² < a²t² + 2abn`. -/
theorem spiralLoopR_eventually_breaks (cosF sinF : ℚ → ℚ) (a b maxR cx cy wq hq : ℚ)
    (ha : 0 < a) (hb : 0 < b) :
    ∀ (n : Nat) (t : ℚ) (accR : List (ℚ × Int × Int)) (samples : List (ℚ × ℚ × ℚ)),
      0 < t → maxR * maxR < a * a * t * t + 2 * a * b * (n : ℚ) →
      ∃ out, spiralLoopR cosF sinF a b maxR cx cy wq hq (n + 1) t accR samples = some out := by
  intro n
  induction n with
  | zero =>
    intro t accR samples ht hlt
    have hat : 0 < a * t := mul_pos ha ht
    have hbrk : maxR < a * t := by
      by_contra hc
      push_neg at hc
      push_cast at hlt
      nlinarith
    exact ⟨_, by rw [spiralLoopR_succ, if_pos hbrk]⟩
  | succ n ih =>
    intro t accR samples ht hlt
    by_cases hbrk : maxR < a * t
    · exact ⟨_, by rw [spiralLoopR_succ, if_pos hbrk]⟩
    · push_neg at hbrk
      have hat : 0 < a * t := mul_pos ha ht
      have htne : t ≠ 0 := ne_of_gt ht
      have hane : a ≠ 0 := ne_of_gt ha
      have hstep : (if 0 < a * t then b / (a * t) else b) = b / (a * t) := if_pos hat
      have ht2pos : 0 < t + b / (a * t) := by positivity
      have hexpand : a * (t + b / (a * t)) = a * t + b / t := by
        field_simp
        ring
      have hcross : a * t * (b / t) = a * b := by
        field_simp
        ring
      have hkey : a * a * t * t + 2 * a * b ≤
          a * a * (t + b / (a * t)) * (t + b / (a * t)) := by
        have hsq : a * a * (t + b / (a * t)) * (t + b / (a * t)) =
            (a * t + b / t) * (a * t + b / t) := by
          calc a * a * (t + b / (a * t)) * (t + b / (a * t)) =
              (a * (t + b / (a * t))) * (a * (t + b / (a * t))) := by ring
            _ = (a * t + b / t) * (a * t + b / t) := by rw [hexpand]
        rw [hsq]
        nlinarith [sq_nonneg (b / t), hcross]
      obtain ⟨out, hout⟩ := ih (t + b / (a * t)) (if 0 ≤ cx + a * t * cosF t ∧
          cx + a * t * cosF t < wq ∧ 0 ≤ cy + a * t * sinF t ∧
          cy + a * t * sinF t < hq then
            accR ++ [(a * t, truncRat (cx + a * t * cosF t),
              truncRat (cy + a * t * sinF t))]
          else accR)
        (samples ++ [(a * t, cx + a * t * cosF t, cy + a * t * sinF t)]) ht2pos
        (by push_cast at hlt ⊢; nlinarith)
      refine ⟨out, ?_⟩
      rw [spiralLoopR_succ, if_neg (not_lt.mpr hbrk), hstep]
      exact hout

/-- Radii of emitted spiral points are non-decreasing in emission order. -/
theorem spiralLoopR_radii_monotone (cosF sinF : ℚ → ℚ) (a b maxR cx cy wq hq : ℚ)
    (ha : 0 ≤ a) (hb : 0 ≤ b) :
    ∀ (fuel : Nat) (t : ℚ) (accR : List (ℚ × Int × Int)) (samples : List (ℚ × ℚ × ℚ))
      (out : List (ℚ × Int × Int) × List (ℚ × ℚ × ℚ) × ℚ),
      0 ≤ t →
      (∀ p ∈ accR, p.1 ≤ a * t) →
      (accR.map Prod.fst).Pairwise (· ≤ ·) →
      spiralLoopR cosF sinF a b maxR cx cy wq hq fuel t accR samples = some out →
      (out.1.map Prod.fst).Pairwise (· ≤ ·) := by
  intro fuel
  induction fuel with
  | zero =>
    intro t accR samples out ht hub hpw hrun
    exact absurd hrun (by simp [spiralLoopR])
  | succ fuel ih =>
    intro t accR samples out ht hub hpw hrun
    rw [spiralLoopR_succ] at hrun
    by_cases hbrk : maxR < a * t
    · rw [if_pos hbrk] at hrun
      have hout : (accR, samples, a * t) = out := Option.some_inj.mp hrun
      rw [← hout]
      exact hpw
    · rw [if_neg hbrk] at hrun
      have hinc : 0 ≤ (if 0 < a * t then b / (a * t) else b) := by
        split_ifs with hpos
        · exact div_nonneg hb (le_of_lt hpos)
        · exact hb
      have ht2 : 0 ≤ t + (if 0 < a * t then b / (a * t) else b) := by linarith
      have hmono : a * t ≤ a * (t + (if 0 < a * t then b / (a * t) else b)) :=
        mul_le_mul_of_nonneg_left (le_add_of_nonneg_right hinc) ha
      by_cases hemit : 0 ≤ cx + a * t * cosF t ∧ cx + a * t * cosF t < wq ∧
          0 ≤ cy + a * t * sinF t ∧ cy + a * t * sinF t < hq
      · rw [if_pos hemit] at hrun
        refine ih _ _ _ _ ht2 ?_ ?_ hrun
        · intro p hp
          rcases List.mem_append.mp hp with hold | hnew
          · exact le_trans (hub p hold) hmono
          · rw [List.mem_singleton] at hnew
            rw [hnew]
            exact hmono
        · rw [List.map_append, List.pairwise_append]
          refine ⟨hpw, List.pairwise_singleton _ _, ?_⟩
          intro v hv u hu
          obtain ⟨p, hpmem, hpv⟩ := List.mem_map.mp hv
          have hu1 : u = a * t := by simpa using hu
          rw [← hpv, hu1]
          exact hub p hpmem
      · rw [if_neg hemit] at hrun
        exact ih _ _ _ _ ht2 (fun p hp => le_trans (hub p hp) hmono) hpw hrun

/-- Every point the spiral loop emits lies inside `[0, w) × [0, h)` (the
in-loop bound filter), and the loop only returns once the radius strictly
exceeds `maxR`. -/
theorem spiralLoopR_inbounds (cosF sinF : ℚ → ℚ) (a b maxR cx cy : ℚ) (w h : Int) :
    ∀ (fuel : Nat) (t : ℚ) (accR : List (ℚ × Int × Int)) (samples : List (ℚ × ℚ × ℚ))
      (out : List (ℚ × Int × Int) × List (ℚ × ℚ × ℚ) × ℚ),
      (∀ p ∈ accR, 0 ≤ p.2.1 ∧ p.2.1 < w ∧ 0 ≤ p.2.2 ∧ p.2.2 < h) →
      spiralLoopR cosF sinF a b maxR cx cy (w : ℚ) (h : ℚ) fuel t accR samples = some out →
      (∀ p ∈ out.1, 0 ≤ p.2.1 ∧ p.2.1 < w ∧ 0 ≤ p.2.2 ∧ p.2.2 < h) ∧ maxR < out.2.2 := by
  intro fuel
  induction fuel with
  | zero =>
    intro t accR samples out hinv hrun
    exact absurd hrun (by simp [spiralLoopR])
  | succ fuel ih =>
    intro t accR samples out hinv hrun
    rw [spiralLoopR_succ] at hrun
    by_cases hbrk : maxR < a * t
    · rw [if_pos hbrk] at hrun
      have hout : (accR, samples, a * t) = out := Option.some_inj.mp hrun
      rw [← hout]
      exact ⟨hinv, hbrk⟩
    · rw [if_neg hbrk] at hrun
      by_cases hemit : 0 ≤ cx + a * t * cosF t ∧ cx + a * t * cosF t < (w : ℚ) ∧
          0 ≤ cy + a * t * sinF t ∧ cy + a * t * sinF t < (h : ℚ)
      · rw [if_pos hemit] at hrun
        refine ih _ _ _ _ ?_ hrun
        intro p hp
        rcases List.mem_append.mp hp with hold | hnew
        · exact hinv p hold
        · rw [List.mem_singleton] at hnew
          rw [hnew]
          obtain ⟨hx0, hxw, hy0, hyh⟩ := hemit
          have htx : truncRat (cx + a * t * cosF t) = ⌊cx + a * t * cosF t⌋ :=
            truncRat_eq_floor hx0
          have hty : truncRat (cy + a * t * sinF t) = ⌊cy + a * t * sinF t⌋ :=
            truncRat_eq_floor hy0
          refine ⟨?_, ?_, ?_, ?_⟩
          · dsimp only
            rw [htx]
            exact Int.le_floor.mpr (by exact_mod_cast hx0)
          · dsimp only
            rw [htx]
            exact Int.floor_lt.mpr hxw
          · dsimp only
            rw [hty]
            exact Int.le_floor.mpr (by exact_mod_cast hy0)
          · dsimp only
            rw [hty]
            exact Int.floor_lt.mpr hyh
      · rw [if_neg hemit] at hrun
        exact ih _ _ _ _ hinv hrun

/-- `spiralCoords` is the instrumented spiral run with radii and samples
projected away. -/
theorem spiralCoords_eq_proj (piV : ℚ) (cosF sinF : ℚ → ℚ)
    (width height spacing_x spacing_y : Int) (fuel : Nat) :
    spiralCoords piV cosF sinF width height spacing_x spacing_y fuel =
      (spiralLoopR cosF sinF ((spacing_x : ℚ) / (2 * piV)) ((spacing_y : ℚ) / 20)
        ((min width height / 2 : Int) : ℚ) ((width / 2 : Int) : ℚ)
        ((height / 2 : Int) : ℚ) (width : ℚ) (height : ℚ) fuel 0 [] []).map
        (fun o => o.1.map Prod.snd) := by
  unfold spiralCoords
  have h := spiralLoop_eq_spiralLoopR cosF sinF ((spacing_x : ℚ) / (2 * piV))
    ((spacing_y : ℚ) / 20) ((min width height / 2 : Int) : ℚ) ((width / 2 : Int) : ℚ)
    ((height / 2 : Int) : ℚ) (width : ℚ) (height : ℚ) fuel 0 [] []
  simpa using h

/-- The concrete instrumented spiral run behind the C7 analysis:
width=height=100, spacing_x=314, spacing_y=20, with the rational stand-ins
pi=157/50, cos=1, sin=0 (so a=50, b=1, max_radius=50, center=(50,50)). -/
theorem spiralRun314 : spiralLoopR trivPrims.cosF trivPrims.sinF
    (((314 : Int) : ℚ) / (2 * trivPrims.piV)) (((20 : Int) : ℚ) / 20)
    ((min 100 100 / 2 : Int) : ℚ) ((100 / 2 : Int) : ℚ) ((100 / 2 : Int) : ℚ)
    ((100 : Int) : ℚ) ((100 : Int) : ℚ) 5 0 [] [] =
    some ([(0, 50, 50)], [(0, 50, 50), (50, 100, 50)], 51) := by
  norm_num [trivPrims]
  rw [show (5 : ℕ) = 4 + 1 from rfl, spiralLoopR_succ]
  norm_num [truncRat_fifty]
  rw [show (4 : ℕ) = 3 + 1 from rfl, spiralLoopR_succ]
  norm_num
  rw [show (3 : ℕ) = 2 + 1 from rfl, spiralLoopR_succ]
  norm_num

/-- C7 counterexample: with width=height=100, spacing_x=314, spacing_y=20
and the rational stand-ins pi=157/50, cos=1, sin=0, the spiral branch
generates the sample (r=50, x=100, y=50), whose x is outside [0, 100), yet
emits only (50, 50): out-of-bounds samples are dropped at generation, not
deferred to the compositor.  Moreover the loop terminates with final
radius 51, which does not exceed 1.5 × the half-minor-dimension (75): the
claimed 1.5 factor does not exist in the break condition. -/
theorem C7_counterexample :
    spiralCoords trivPrims.piV trivPrims.cosF trivPrims.sinF 100 100 314 20 5 =
      some [(50, 50)] ∧
    spiralLoopR trivPrims.cosF trivPrims.sinF
      (((314 : Int) : ℚ) / (2 * trivPrims.piV)) (((20 : Int) : ℚ) / 20)
      ((min 100 100 / 2 : Int) : ℚ) ((100 / 2 : Int) : ℚ) ((100 / 2 : Int) : ℚ)
      ((100 : Int) : ℚ) ((100 : Int) : ℚ) 5 0 [] [] =
      some ([(0, 50, 50)], [(0, 50, 50), (50, 100, 50)], 51) ∧
    ¬((100 : ℚ) < 100) ∧
    ((100 : Int), (50 : Int)) ∉ [((50 : Int), (50 : Int))] ∧
    (51 : ℚ) ≤ 3 / 2 * ((min 100 100 / 2 : Int) : ℚ) := by
  refine ⟨?_, spiralRun314, by norm_num, by decide, ?_⟩
  · rw [spiralCoords_eq_proj, spiralRun314]
    rfl
  · norm_num

/-- C7 (amended): whenever the spiral loop terminates within its fuel,
every emitted placement point lies inside [0, width) × [0, height) —
out-of-bounds samples are discarded at generation rather than deferred to
the compositor — and the loop breaks only once the radius strictly exceeds
`min(width, height) // 2` (the half-minor-dimension, with no 1.5 factor). -/
theorem C7_spiral_clips_at_generation (piV : ℚ) (cosF sinF : ℚ → ℚ)
    (width height spacing_x spacing_y : Int) (fuel : Nat)
    (tr : List (ℚ × Int × Int)) (samples : List (ℚ × ℚ × ℚ)) (rFinal : ℚ)
    (hrun : spiralLoopR cosF sinF ((spacing_x : ℚ) / (2 * piV)) ((spacing_y : ℚ) / 20)
        ((min width height / 2 : Int) : ℚ) ((width / 2 : Int) : ℚ)
        ((height / 2 : Int) : ℚ) (width : ℚ) (height : ℚ) fuel 0 [] [] =
      some (tr, samples, rFinal)) :
    spiralCoords piV cosF sinF width height spacing_x spacing_y fuel =
      some (tr.map Prod.snd) ∧
    (∀ p ∈ tr, 0 ≤ p.2.1 ∧ p.2.1 < width ∧ 0 ≤ p.2.2 ∧ p.2.2 < height) ∧
    ((min width height / 2 : Int) : ℚ) < rFinal := by
  have hib := spiralLoopR_inbounds cosF sinF ((spacing_x : ℚ) / (2 * piV))
    ((spacing_y : ℚ) / 20) ((min width height / 2 : Int) : ℚ) ((width / 2 : Int) : ℚ)
    ((height / 2 : Int) : ℚ) width height fuel 0 [] [] (tr, samples, rFinal)
    (fun p hp => absurd hp (List.not_mem_nil p)) hrun
  refine ⟨?_, hib.1, hib.2⟩
  rw [spiralCoords_eq_proj, hrun]
  rfl

theorem C7_witness :
    spiralCoords trivPrims.piV trivPrims.cosF trivPrims.sinF 100 100 314 20 5 =
      some ([((0 : ℚ), ((50 : Int), (50 : Int)))].map Prod.snd) :=
  (C7_spiral_clips_at_generation trivPrims.piV trivPrims.cosF trivPrims.sinF 100 100 314
    20 5 [(0, 50, 50)] [(0, 50, 50), (50, 100, 50)] 51 spiralRun314).1

/-- C8: for every positive canvas and spacing (and any stand-ins for pi,
cos, sin with pi > 0), the spiral loop terminates — some finite fuel
completes the run — and the radii of the emitted points are non-decreasing
in emission order. -/
theorem C8_spiral_terminates_radii_monotone (piV : ℚ) (cosF sinF : ℚ → ℚ)
    (width height spacing_x spacing_y : Int) (hpi : 0 < piV) (hw : 0 < width)
    (hh : 0 < height) (hsx : 0 < spacing_x) (hsy : 0 < spacing_y) :
    ∃ (fuel : Nat) (tr : List (ℚ × Int × Int)) (samples : List (ℚ × ℚ × ℚ)) (rFinal : ℚ),
      spiralLoopR cosF sinF ((spacing_x : ℚ) / (2 * piV)) ((spacing_y : ℚ) / 20)
          ((min width height / 2 : Int) : ℚ) ((width / 2 : Int) : ℚ)
          ((height / 2 : Int) : ℚ) (width : ℚ) (height : ℚ) fuel 0 [] [] =
        some (tr, samples, rFinal) ∧
      spiralCoords piV cosF sinF width height spacing_x spacing_y fuel =
        some (tr.map Prod.snd) ∧
      (tr.map Prod.fst).Pairwise (· ≤ ·) := by
  have hsxq : (0 : ℚ) < (spacing_x : ℚ) := by exact_mod_cast hsx
  have hsyq : (0 : ℚ) < (spacing_y : ℚ) := by exact_mod_cast hsy
  have ha : (0 : ℚ) < (spacing_x : ℚ) / (2 * piV) := div_pos hsxq (by positivity)
  have hb : (0 : ℚ) < (spacing_y : ℚ) / 20 := div_pos hsyq (by norm_num)
  have hm0 : (0 : ℚ) ≤ ((min width height / 2 : Int) : ℚ) := by
    have hint : (0 : Int) ≤ min width height / 2 := by omega
    exact_mod_cast hint
  obtain ⟨N, hN⟩ := exists_nat_gt (((min width height / 2 : Int) : ℚ) *
    ((min width height / 2 : Int) : ℚ) /
    (2 * ((spacing_x : ℚ) / (2 * piV)) * ((spacing_y : ℚ) / 20)))
  have h2ab : (0 : ℚ) < 2 * ((spacing_x : ℚ) / (2 * piV)) * ((spacing_y : ℚ) / 20) := by
    positivity
  have hNlt : ((min width height / 2 : Int) : ℚ) * ((min width height / 2 : Int) : ℚ) <
      2 * ((spacing_x : ℚ) / (2 * piV)) * ((spacing_y : ℚ) / 20) * (N : ℚ) := by
    rw [div_lt_iff₀ h2ab] at hN
    linarith
  have haabb : (0 : ℚ) ≤ ((spacing_x : ℚ) / (2 * piV)) * ((spacing_x : ℚ) / (2 * piV)) *
      ((spacing_y : ℚ) / 20) * ((spacing_y : ℚ) / 20) := by positivity
  have hineq : ((min width height / 2 : Int) : ℚ) * ((min width height / 2 : Int) : ℚ) <
      ((spacing_x : ℚ) / (2 * piV)) * ((spacing_x : ℚ) / (2 * piV)) *
        ((spacing_y : ℚ) / 20) * ((spacing_y : ℚ) / 20) +
      2 * ((spacing_x : ℚ) / (2 * piV)) * ((spacing_y : ℚ) / 20) * (N : ℚ) := by
    linarith
  have hrun : ∃ out, spiralLoopR cosF sinF ((spacing_x : ℚ) / (2 * piV))
      ((spacing_y : ℚ) / 20) ((min width height / 2 : Int) : ℚ) ((width / 2 : Int) : ℚ)
      ((height / 2 : Int) : ℚ) (width : ℚ) (height : ℚ) (N + 1 + 1) 0 [] [] = some out := by
    rw [spiralLoopR_succ]
    have hnot : ¬ ((min width height / 2 : Int) : ℚ) <
        ((spacing_x : ℚ) / (2 * piV)) * 0 := by
      rw [mul_zero]
      exact not_lt.mpr hm0
    rw [if_neg hnot]
    have harg : (0 : ℚ) + (if 0 < ((spacing_x : ℚ) / (2 * piV)) * 0 then
        ((spacing_y : ℚ) / 20) / (((spacing_x : ℚ) / (2 * piV)) * 0)
        else (spacing_y : ℚ) / 20) = (spacing_y : ℚ) / 20 := by
      rw [mul_zero, if_neg (lt_irrefl 0), zero_add]
    rw [harg]
    exact spiralLoopR_eventually_breaks cosF sinF _ _ _ _ _ _ _ ha hb N
      ((spacing_y : ℚ) / 20) _ _ hb (by nlinarith [hineq])
  obtain ⟨⟨tr, samples, rFinal⟩, hout⟩ := hrun
  refine ⟨N + 1 + 1, tr, samples, rFinal, hout, ?_, ?_⟩
  · rw [spiralCoords_eq_proj, hout]
    rfl
  · exact spiralLoopR_radii_monotone cosF sinF _ _ _ _ _ _ _ (le_of_lt ha) (le_of_lt hb)
      (N + 1 + 1) 0 [] [] (tr, samples, rFinal) le_rfl
      (fun p hp => absurd hp (List.not_mem_nil p)) List.Pairwise.nil hout

theorem C8_witness :
    ∃ (fuel : Nat) (tr : List (ℚ × Int × Int)) (samples : List (ℚ × ℚ × ℚ)) (rFinal : ℚ),
      spiralLoopR trivPrims.cosF trivPrims.sinF (((2 : Int) : ℚ) / (2 * 1))
          (((2 : Int) : ℚ) / 20) ((min 4 4 / 2 : Int) : ℚ) ((4 / 2 : Int) : ℚ)
          ((4 / 2 : Int) : ℚ) ((4 : Int) : ℚ) ((4 : Int) : ℚ) fuel 0 [] [] =
        some (tr, samples, rFinal) ∧
      spiralCoords 1 trivPrims.cosF trivPrims.sinF 4 4 2 2 fuel =
        some (tr.map Prod.snd) ∧
      (tr.map Prod.fst).Pairwise (· ≤ ·) :=
  C8_spiral_terminates_radii_monotone 1 trivPrims.cosF trivPrims.sinF 4 4 2 2
    (by norm_num) (by norm_num) (by norm_num) (by norm_num) (by norm_num)

/-- Cache coherence: every cache entry is exactly the loaded-and-resized
image for its key — the only way `get_cached_custom_image` ever populates
the cache, hence an invariant of the whole pipeline. -/
def CacheCoherent (P : Primitives) (cache : Cache) : Prop :=
  ∀ (p : String) (w h : Int) (img : Img), cache (p, w, h) = some img →
    ∃ raw, P.loadImage p = some raw ∧ img = P.resize w h raw

/-- Under a coherent cache, `get_cached_custom_image` returns the canonical
loaded-and-resized image whether it hits the cache or loads fresh, and
leaves the cache coherent. -/
theorem get_cached_coherent (P : Primitives) (cache : Cache) (p : String) (w h : Int)
    (hc : CacheCoherent P cache) :
    (get_cached_custom_image P cache p w h).1 =
      (if p = "" ∨ P.fsExists p = false then none
       else (P.loadImage p).map (P.resize w h)) ∧
    CacheCoherent P (get_cached_custom_image P cache p w h).2 := by
  by_cases h0 : p = "" ∨ P.fsExists p = false
  · constructor
    · simp [get_cached_custom_image, h0]
    · simpa [get_cached_custom_image, h0] using hc
  · rcases hcc : cache (p, w, h) with _ | img
    · rcases hl : P.loadImage p with _ | raw
      · constructor
        · simp [get_cached_custom_image, h0, hcc, hl]
        · simpa [get_cached_custom_image, h0, hcc, hl] using hc
      · constructor
        · simp [get_cached_custom_image, h0, hcc, hl]
        · intro p' w' h' img' hmem
          simp only [get_cached_custom_image, if_neg h0, hcc, hl] at hmem
          by_cases hk : ((p', w', h') : CacheKey) = (p, w, h)
          · rw [if_pos hk] at hmem
            have hp : p' = p := congrArg Prod.fst hk
            have hw : w' = w := congrArg (fun k : CacheKey => k.2.1) hk
            have hh : h' = h := congrArg (fun k : CacheKey => k.2.2) hk
            subst hp
            subst hw
            subst hh
            exact ⟨raw, hl, (Option.some_inj.mp hmem).symm⟩
          · rw [if_neg hk] at hmem
            exact hc p' w' h' img' hmem
    · obtain ⟨raw, hload, himg⟩ := hc p w h img hcc
      constructor
      · simp [get_cached_custom_image, h0, hcc, hload, himg]
      · simpa [get_cached_custom_image, h0, hcc] using hc

/-- Under coherent caches, `create_shape` produces the same image from any
two caches, and leaves the cache coherent. -/
theorem create_shape_coherent (P : Primitives) (shape_type : String)
    (shape_width shape_height : Int) (color : Pixel) (rotation : ℚ)
    (path : Option String) (c c' : Cache)
    (hc : CacheCoherent P c) (hc' : CacheCoherent P c') :
    (create_shape P c shape_type shape_width shape_height color rotation path).1 =
      (create_shape P c' shape_type shape_width shape_height color rotation path).1 ∧
    CacheCoherent P
      (create_shape P c shape_type shape_width shape_height color rotation path).2 := by
  unfold create_shape
  by_cases h1 : shape_type = "circle"
  · simp [h1, hc]
  by_cases h2 : shape_type = "square"
  · simp [h1, h2, hc]
  by_cases h3 : shape_type = "triangle"
  · simp [h1, h2, h3, hc]
  by_cases h4 : shape_type = "star"
  · simp [h1, h2, h3, h4, hc]
  by_cases h5 : shape_type = "custom" ∧ pathOk P path
  · obtain ⟨hty, hok⟩ := h5
    rcases path with _ | p
    · exact absurd hok (by simp [pathOk])
    have hg := get_cached_coherent P c p shape_width shape_height hc
    have hg' := get_cached_coherent P c' p shape_width shape_height hc'
    have hsame : (get_cached_custom_image P c p shape_width shape_height).1 =
        (get_cached_custom_image P c' p shape_width shape_height).1 := by
      rw [hg.1, hg'.1]
    have hcond : shape_type = "custom" ∧ pathOk P (some p) := ⟨hty, hok⟩
    simp only [if_neg h1, if_neg h2, if_neg h3, if_neg h4, if_pos hcond]
    rcases hres : (get_cached_custom_image P c p shape_width shape_height).1 with _ | img
    · have hres2 : (get_cached_custom_image P c' p shape_width shape_height).1 = none := by
        rw [← hsame, hres]
      rw [hres2]
      exact ⟨rfl, hg.2⟩
    · have hres2 : (get_cached_custom_image P c' p shape_width shape_height).1 = some img := by
        rw [← hsame, hres]
      rw [hres2]
      exact ⟨by trivial, hg.2⟩
  · simp only [if_neg h1, if_neg h2, if_neg h3, if_neg h4, if_neg h5]
    exact ⟨by trivial, hc⟩

/-- The coordinate list produced by `generate_pattern_coordinates` does not
depend on the ambient generator state or on the OS entropy: the `random`
branch reseeds from `hash((width, height, spacing_x, spacing_y))` before
drawing, and the other branches never draw. -/
theorem generate_pattern_coordinates_indep (P : Primitives) (fuel : Nat)
    (width height spacing_x spacing_y : Int) (pattern_type : String)
    (g1 g2 : PRNG) (e1 e2 : Nat) :
    (generate_pattern_coordinates P fuel width height spacing_x spacing_y
        pattern_type g1 e1).1 =
      (generate_pattern_coordinates P fuel width height spacing_x spacing_y
        pattern_type g2 e2).1 := by
  have h1 : randomCoords width height spacing_x spacing_y e1 =
      ((shapesLoop (spacing_x / 3) (spacing_y / 3) width height
          ((width / spacing_x * (height / spacing_y) * 6 / 5).toNat)
          ([], pySeed (pyHash width height spacing_x spacing_y))).1,
        pySeedEntropy e1) := rfl
  have h2 : randomCoords width height spacing_x spacing_y e2 =
      ((shapesLoop (spacing_x / 3) (spacing_y / 3) width height
          ((width / spacing_x * (height / spacing_y) * 6 / 5).toNat)
          ([], pySeed (pyHash width height spacing_x spacing_y))).1,
        pySeedEntropy e2) := rfl
  unfold generate_pattern_coordinates
  split_ifs with hg ho hr hs
  · rfl
  · rfl
  · rw [h1, h2]
  · rfl
  · rfl

/-- With zero scale and rotation randomization, the placement loop produces
the same canvas from any two coherent caches and any two generator states. -/
theorem placeShapes_deterministic (P : Primitives) (shape_type : String)
    (custom_image_path : Option String) (fg_color : Pixel)
    (scale_randomization rotation_randomization base_rotation : ℚ)
    (aa_shape_width aa_shape_height aa_width aa_height : Int)
    (hsr : scale_randomization = 0) (hrr : rotation_randomization = 0) :
    ∀ (l : List (Int × Int)) (img : Img) (c c' : Cache) (g g' : PRNG),
      CacheCoherent P c → CacheCoherent P c' →
      (placeShapes P shape_type custom_image_path fg_color scale_randomization
          rotation_randomization base_rotation aa_shape_width aa_shape_height
          aa_width aa_height l (img, c, g)).1 =
        (placeShapes P shape_type custom_image_path fg_color scale_randomization
          rotation_randomization base_rotation aa_shape_width aa_shape_height
          aa_width aa_height l (img, c', g')).1 := by
  intro l
  induction l with
  | nil => intro img c c' g g' hc hc'; rfl
  | cons xy rest ih =>
    intro img c c' g g' hc hc'
    obtain ⟨x, y⟩ := xy
    have hnsr : ¬ (0 : ℚ) < scale_randomization := by rw [hsr]; exact lt_irrefl 0
    have hnrr : ¬ (0 : ℚ) < rotation_randomization := by rw [hrr]; exact lt_irrefl 0
    simp only [placeShapes, if_neg hnsr, if_neg hnrr]
    have hcs := create_shape_coherent P shape_type aa_shape_width aa_shape_height
      fg_color base_rotation custom_image_path c c' hc hc'
    have hcs' := create_shape_coherent P shape_type aa_shape_width aa_shape_height
      fg_color base_rotation custom_image_path c' c hc' hc
    rw [← hcs.1]
    exact ih _ _ _ _ _ hcs.2 hcs'.2

/-- C3: with scale_randomization = 0 and rotation_randomization = 0, two
`create_pattern` calls with the same configuration (and the same library
primitives) produce the same output image, whatever the ambient generator
states, OS entropy values, and (coherent) custom-image caches; in
particular the coordinate list of `generate_pattern_coordinates` — the
`random` layout included, whose seed is derived only from
(width, height, spacing_x, spacing_y) — is identical across calls. -/
theorem C3_create_pattern_deterministic (P : Primitives) (cfg : Config) (fuel : Nat)
    (c c' : Cache) (g g' : PRNG) (entropy entropy' : Nat)
    (hsr : cfg.scale_randomization = 0) (hrr : cfg.rotation_randomization = 0)
    (hc : CacheCoherent P c) (hc' : CacheCoherent P c') :
    (create_pattern P cfg fuel c g entropy).1 =
      (create_pattern P cfg fuel c' g' entropy').1 ∧
    ∀ (width height spacing_x spacing_y : Int) (pattern_type : String)
      (g1 g2 : PRNG) (e1 e2 : Nat),
      (generate_pattern_coordinates P fuel width height spacing_x spacing_y
          pattern_type g1 e1).1 =
        (generate_pattern_coordinates P fuel width height spacing_x spacing_y
          pattern_type g2 e2).1 := by
  refine ⟨?_, fun w h sx sy pt g1 g2 e1 e2 =>
    generate_pattern_coordinates_indep P fuel w h sx sy pt g1 g2 e1 e2⟩
  have hcoords := generate_pattern_coordinates_indep P fuel
    (if cfg.antialiasing then cfg.width * cfg.aa_scale else cfg.width)
    (if cfg.antialiasing then cfg.height * cfg.aa_scale else cfg.height)
    (if cfg.antialiasing then cfg.spacing_x.getD cfg.spacing * cfg.aa_scale
      else cfg.spacing_x.getD cfg.spacing)
    (if cfg.antialiasing then cfg.spacing_y.getD cfg.spacing * cfg.aa_scale
      else cfg.spacing_y.getD cfg.spacing)
    cfg.pattern_type g g' entropy entropy'
  unfold create_pattern
  dsimp only
  rw [hcoords]
  rcases hsc : (generate_pattern_coordinates P fuel
      (if cfg.antialiasing then cfg.width * cfg.aa_scale else cfg.width)
      (if cfg.antialiasing then cfg.height * cfg.aa_scale else cfg.height)
      (if cfg.antialiasing then cfg.spacing_x.getD cfg.spacing * cfg.aa_scale
        else cfg.spacing_x.getD cfg.spacing)
      (if cfg.antialiasing then cfg.spacing_y.getD cfg.spacing * cfg.aa_scale
        else cfg.spacing_y.getD cfg.spacing)
      cfg.pattern_type g' entropy').1 with _ | coords
  · rfl
  · dsimp only
    have hps := placeShapes_deterministic P cfg.shape_type cfg.custom_image_path
      cfg.fg_color cfg.scale_randomization cfg.rotation_randomization cfg.base_rotation
      (if cfg.antialiasing then cfg.shape_width.getD cfg.base_scale * cfg.aa_scale
        else cfg.shape_width.getD cfg.base_scale)
      (if cfg.antialiasing then cfg.shape_height.getD cfg.base_scale * cfg.aa_scale
        else cfg.shape_height.getD cfg.base_scale)
      (if cfg.antialiasing then cfg.width * cfg.aa_scale else cfg.width)
      (if cfg.antialiasing then cfg.height * cfg.aa_scale else cfg.height)
      hsr hrr coords
      (newImage (if cfg.antialiasing then cfg.width * cfg.aa_scale else cfg.width)
        (if cfg.antialiasing then cfg.height * cfg.aa_scale else cfg.height)
        cfg.bg_color)
      c c'
      (generate_pattern_coordinates P fuel
        (if cfg.antialiasing then cfg.width * cfg.aa_scale else cfg.width)
        (if cfg.antialiasing then cfg.height * cfg.aa_scale else cfg.height)
        (if cfg.antialiasing then cfg.spacing_x.getD cfg.spacing * cfg.aa_scale
          else cfg.spacing_x.getD cfg.spacing)
        (if cfg.antialiasing then cfg.spacing_y.getD cfg.spacing * cfg.aa_scale
          else cfg.spacing_y.getD cfg.spacing)
        cfg.pattern_type g entropy).2
      (generate_pattern_coordinates P fuel
        (if cfg.antialiasing then cfg.width * cfg.aa_scale else cfg.width)
        (if cfg.antialiasing then cfg.height * cfg.aa_scale else cfg.height)
        (if cfg.antialiasing then cfg.spacing_x.getD cfg.spacing * cfg.aa_scale
          else cfg.spacing_x.getD cfg.spacing)
        (if cfg.antialiasing then cfg.spacing_y.getD cfg.spacing * cfg.aa_scale
          else cfg.spacing_y.getD cfg.spacing)
        cfg.pattern_type g' entropy').2
      hc hc'
    rw [hps]

/-- Concrete configuration used by the C3 witness. -/
def cfgEx : Config :=
  { width := 64, height := 64, spacing := 32, pattern_type := "grid",
    shape_type := "square", antialiasing := false,
    scale_randomization := 0, rotation_randomization := 0 }

theorem C3_witness :
    (create_pattern trivPrims cfgEx 3 emptyCache (pySeed 1) 0).1 =
      (create_pattern trivPrims cfgEx 3 emptyCache (pySeed 2) 7).1 :=
  (C3_create_pattern_deterministic trivPrims cfgEx 3 emptyCache emptyCache
    (pySeed 1) (pySeed 2) 0 7 rfl rfl
    (fun p w h img hmem => by simp [emptyCache] at hmem)
    (fun p w h img hmem => by simp [emptyCache] at hmem)).1
